import Mathlib

/-!
Shallow embedding of the snappy-swift test tooling:
`src/generate_test_data.cpp` (fixture generator) and
`src/validate_snappy.cpp` (fixture validator).

Byte sequences are `List Nat` (each element a byte value).  The reference
codec (snappy, which lives outside this repository in `../snappy-cpp`) is an
abstract record of the four operations the spec lists in section 6.
-/

namespace SnappySwift

/-- Byte sequences, as in `std::string` used as a byte buffer. -/
abbrev Bytes := List Nat

/-- Contents of a C++ string literal as a byte list (ASCII code points). -/
def strBytes (s : String) : Bytes := s.data.map Char.toNat

/-! ## Generator corpus (generate_test_data.cpp, main, lines 28-109) -/

/-- Test 3: `"Hello, World!"` (line 39). -/
def helloInput : Bytes := strBytes "Hello, World!"

/-- Test 5 (lines 45-49): loop appending `"abcdefgh"` twenty times. -/
def patternInput : Bytes :=
  (List.range 20).foldl (fun acc _ => acc ++ strBytes "abcdefgh") []

/-- Test 6 (lines 52-56): four adjacent literals concatenate into one string. -/
def longerTextInput : Bytes :=
  strBytes ("The quick brown fox jumps over the lazy dog. " ++
    "The quick brown fox jumps over the lazy dog. " ++
    "The quick brown fox jumps over the lazy dog. " ++
    "The quick brown fox jumps over the lazy dog.")

/-- Test 7 (lines 60-63): `for (int i = 32; i < 127; i++) ascii += char(i);`. -/
def asciiInput : Bytes :=
  (List.range' 32 95).foldl (fun acc i => acc ++ [i]) []

/-- Test 9 (line 71). -/
def mixedInput : Bytes := strBytes "AAAAAAAbbbbbCCCCCdddEEFF1234567890"

/-- Test 10 (lines 75-78): `numbers += std::to_string(i) + " "` for i in 0..99. -/
def numbersInput : Bytes :=
  (List.range 100).foldl (fun acc i => acc ++ strBytes (toString i) ++ strBytes " ") []

/-- The 45-byte phrase appended by the 100 KB loop (line 83). -/
def chunkPhrase : Bytes := strBytes "The quick brown fox jumps over the lazy dog. "

/-- `std::string::resize(n)`: truncate to `n` bytes, padding with NUL when the
string is shorter than `n`. -/
def resizeStr (n : Nat) (l : Bytes) : Bytes :=
  l.take n ++ List.replicate (n - l.length) 0

/-- Lines 84-86: `while (large100k.size() < 100000) large100k += chunk;`. -/
def build100kLoop (acc : Bytes) : Bytes :=
  if _h : acc.length < 100000 then build100kLoop (acc ++ chunkPhrase) else acc
termination_by 100000 - acc.length
decreasing_by
  simp only [List.length_append]
  have hc : chunkPhrase.length = 45 := by decide
  omega

/-- Test 11 (lines 82-88): phrase loop then `resize(100000)`. -/
def large100kInput : Bytes := resizeStr 100000 (build100kLoop [])

/-- Test 12 (lines 91-98): pseudo-log lines with periodic bursts, then
`resize(1048576)`.  `'A' + (i % 26)` is byte `65 + i % 26`. -/
def large1mbInput : Bytes :=
  resizeStr 1048576
    ((List.range 10000).foldl
      (fun acc i =>
        let acc2 := acc ++ strBytes ("Line " ++ toString i ++
          ": Lorem ipsum dolor sit amet, consectetur adipiscing elit. ")
        if i % 10 = 0 then acc2 ++ List.replicate 50 (65 + i % 26) else acc2)
      [])

/-- Test 13 (lines 103-108): 104857 appends of 100 copies of `'X'` (byte 88). -/
def large10mbInput : Bytes :=
  (List.range (10485760 / 100)).foldl (fun acc _ => acc ++ List.replicate 100 88) []

/-- A test case of the baked-in catalog: name plus input bytes. -/
structure TestCase where
  name : String
  input : Bytes

/-- The ordered catalog of the thirteen `writeTestCase` calls in `main`
(lines 33-109). `'A'` is 65, `'a'` is 97, `'x'` is 120. -/
def catalog : List TestCase :=
  [⟨"empty", []⟩,
   ⟨"single_byte", strBytes "A"⟩,
   ⟨"hello", helloInput⟩,
   ⟨"repeated", List.replicate 100 97⟩,
   ⟨"pattern", patternInput⟩,
   ⟨"longer_text", longerTextInput⟩,
   ⟨"ascii", asciiInput⟩,
   ⟨"large", List.replicate 10000 120⟩,
   ⟨"mixed", mixedInput⟩,
   ⟨"numbers", numbersInput⟩,
   ⟨"large_100kb", large100kInput⟩,
   ⟨"large_1mb", large1mbInput⟩,
   ⟨"large_10mb", large10mbInput⟩]

/-! ## Reference codec (external collaborator, spec section 6)

The codec itself (`../snappy-cpp`) is not part of this repository; the spec
treats it as an external capability with four operations.  `Bool success`
results are modelled with `Option`. -/

/-- The reference codec capability: `compress`, `isValidCompressedBuffer`,
`getUncompressedLength`, `uncompress` (spec section 6). -/
structure Codec where
  compress : Bytes → Bytes
  isValid : Bytes → Bool
  getUncompressedLength : Bytes → Option Nat
  uncompress : Bytes → Option Bytes

/-! ## Fixture generator (generate_test_data.cpp, writeTestCase, lines 11-26) -/

/-- One line of the generator's per-case console summary.  The ratio line
(line 23) records the two operands of the division
`(double)input.size() / compressed.size()`; the rendered decimal text of the
double is not modelled, the operands are. -/
inductive GenLine where
  | header (name : String)
  | inputSize (n : Nat)
  | compressedSize (n : Nat)
  | ratioLine (num den : Nat)
  | savedTo (path : String)
  | blank
  deriving DecidableEq

/-- `writeTestCase` (lines 11-26).  The filesystem is a parameter
`fsWrite : path → bytes → Bool` reporting whether the bytes were persisted;
the C++ code never consults the stream state, which the model mirrors by
returning the write result alongside a summary that does not depend on it. -/
def writeTestCase (compress : Bytes → Bytes) (fsWrite : String → Bytes → Bool)
    (name : String) (input : Bytes) : Bool × List GenLine :=
  let compressed := compress input
  let filename := "Tests/SnappySwiftTests/TestData/" ++ name ++ ".snappy"
  let written := fsWrite filename compressed
  (written,
   [GenLine.header name,
    GenLine.inputSize input.length,
    GenLine.compressedSize compressed.length,
    GenLine.ratioLine input.length compressed.length,
    GenLine.savedTo filename,
    GenLine.blank])

/-- `main` of the generator (lines 28-113): writes each catalog case in order
and always returns 0; write results are ignored. -/
def generatorMain (compress : Bytes → Bytes) (fsWrite : String → Bytes → Bool) :
    Nat × List GenLine :=
  (0, (catalog.map fun c => (writeTestCase compress fsWrite c.name c.input).2).flatten)

/-! ## Fixture validator (validate_snappy.cpp, main, lines 12-82) -/

/-- The validator pipeline stages that can fail (spec section 4.2 plus the
argument/load plumbing). -/
inductive VStage where
  | argCount
  | load
  | structural
  | lengthQuery
  | declaredSize
  | decode
  | finalSize
  deriving DecidableEq

/-- Observable outcome of one validator run: exit code, console lines, whether
`snappy::Uncompress` was invoked (line 63), the divisor of the
compression-ratio division when line 77 executes, and the failing stage. -/
structure VRun where
  exitCode : Nat
  stdoutLines : List String
  stderrLines : List String
  uncompressCalled : Bool
  ratioDivisor : Option Nat
  failStage : Option VStage
  deriving DecidableEq

/-- Lines 35-81 of `validate_snappy.cpp`: the four-stage pipeline run after the
file has been read into `compressed`.  As at line 78, the success-path ratio
line records the division operands rather than the rendered double. -/
def runPipeline (codec : Codec) (filename : String) (compressed : Bytes)
    (expectedSize : Nat) : VRun :=
  let out0 := ["File: " ++ filename,
               "Compressed size: " ++ toString compressed.length ++ " bytes"]
  if codec.isValid compressed then
    let out1 := out0 ++ ["✓ Format validation passed"]
    match codec.getUncompressedLength compressed with
    | none =>
        ⟨1, out1, ["ERROR: Cannot get uncompressed length"], false, none,
         some VStage.lengthQuery⟩
    | some uncompressedLength =>
        let out2 := out1 ++
          ["✓ Uncompressed length: " ++ toString uncompressedLength ++ " bytes"]
        if uncompressedLength ≠ expectedSize then
          ⟨1, out2,
           ["ERROR: Size mismatch! Expected " ++ toString expectedSize ++
            " but got " ++ toString uncompressedLength],
           false, none, some VStage.declaredSize⟩
        else
          let out3 := out2 ++
            ["✓ Size matches expected: " ++ toString expectedSize ++ " bytes"]
          match codec.uncompress compressed with
          | none =>
              ⟨1, out3, ["ERROR: Decompression failed"], true, none,
               some VStage.decode⟩
          | some decompressed =>
              let out4 := out3 ++ ["✓ Decompression successful"]
              if decompressed.length ≠ expectedSize then
                ⟨1, out4,
                 ["ERROR: Decompressed size mismatch! Expected " ++
                  toString expectedSize ++ " but got " ++
                  toString decompressed.length],
                 true, none, some VStage.finalSize⟩
              else
                ⟨0,
                 out4 ++ ["✓ Compression ratio: " ++
                            toString decompressed.length ++ "/" ++
                            toString compressed.length ++ "x",
                          "",
                          "✅ ALL CHECKS PASSED - Swift-compressed data is valid!"],
                 [], true, some compressed.length, none⟩
  else
    ⟨1, out0, ["ERROR: Invalid compressed data format"], false, none,
     some VStage.structural⟩

/-- Result of `std::stoull`: a value, or one of the two exceptions it throws. -/
inductive StoullResult where
  | ok (v : Nat)
  | invalidArgument
  | outOfRange
  deriving DecidableEq

/-- Whitespace as classified by `isspace` in the default C locale. -/
def isCppSpace (c : Char) : Bool :=
  c = ' ' || c = '\t' || c = '\n' || c = '\x0b' || c = '\x0c' || c = '\r'

/-- Decimal digit test. -/
def isDigitChar (c : Char) : Bool := 48 ≤ c.toNat && c.toNat ≤ 57

/-- `std::stoull(s)` at base 10 (cppreference semantics, via `strtoull`):
skip leading whitespace, accept one optional sign, then decimal digits;
throw `invalid_argument` when no digits follow, `out_of_range` when the
digit value exceeds `unsigned long long`; a minus sign wraps the value
modulo 2^64.  Trailing non-digit characters are ignored. -/
def stoull (s : String) : StoullResult :=
  let cs := s.data.dropWhile isCppSpace
  let signed : Bool × List Char :=
    match cs with
    | '-' :: rest => (true, rest)
    | '+' :: rest => (false, rest)
    | _ => (false, cs)
  let digits := signed.2.takeWhile isDigitChar
  if digits = [] then StoullResult.invalidArgument
  else
    let v := digits.foldl (fun acc c => acc * 10 + (c.toNat - 48)) 0
    if 2 ^ 64 ≤ v then StoullResult.outOfRange
    else StoullResult.ok (if signed.1 then (2 ^ 64 - v) % 2 ^ 64 else v)

/-- How a validator process run ends: a normal exit carrying the observable
`VRun`, or abnormal termination by an uncaught C++ exception. -/
inductive ExecOutcome where
  | exited (run : VRun)
  | aborted (exc : String)
  deriving DecidableEq

/-- `main` of `validate_snappy.cpp` (lines 12-82).  `fs` maps a path to its
contents, `none` when the file cannot be opened.  `std::stoull` at line 20 is
called outside any try block, so its exceptions abort the process. -/
def validatorMain (codec : Codec) (fs : String → Option Bytes)
    (args : List String) : ExecOutcome :=
  if args.length ≠ 3 then
    ExecOutcome.exited
      ⟨1, [],
       ["Usage: " ++ args.headD "" ++ " <compressed_file> <expected_size>",
        "Example: " ++ args.headD "" ++ " test.snappy 100"],
       false, none, some VStage.argCount⟩
  else
    let filename := args.getD 1 ""
    match stoull (args.getD 2 "") with
    | StoullResult.invalidArgument => ExecOutcome.aborted "std::invalid_argument"
    | StoullResult.outOfRange => ExecOutcome.aborted "std::out_of_range"
    | StoullResult.ok expectedSize =>
        match fs filename with
        | none =>
            ExecOutcome.exited
              ⟨1, [], ["ERROR: Cannot open file: " ++ filename], false, none,
               some VStage.load⟩
        | some compressed =>
            ExecOutcome.exited (runPipeline codec filename compressed expectedSize)

/-! ## Spec-modelled fragment of the reference codec

`snappy::IsValidCompressedBuffer` and `snappy::GetUncompressedLength` live in
`../snappy-cpp`, outside this repository's sources; the spec describes them in
sections 6 and the glossary ("Structural validity: ... well-framed encoding
(correct headers/length fields)", "Declared length: the uncompressed size
encoded in a compressed stream's header"). -/

/-- Little-endian base-128 varint parse of the stream's length header,
limited to five bytes (a 32-bit length). -/
def parseVarintAux : Bytes → Nat → Nat → Nat → Option Nat
  | [], _, _, _ => none
  | b :: rest, shift, acc, fuel =>
    match fuel with
    | 0 => none
    | fuel' + 1 =>
      if b < 128 then some (acc + b * 2 ^ shift)
      else parseVarintAux rest (shift + 7) (acc + b % 128 * 2 ^ shift) fuel'

/-- Modelled from the spec: `snappy::GetUncompressedLength` (outside src/)
reads "the uncompressed size encoded in a compressed stream's header"; the
header is the leading varint, and an empty stream has no header. -/
def snappyGetLenModel (b : Bytes) : Option Nat := parseVarintAux b 0 0 5

/-- Modelled from the spec: only the header-framing requirement of
`snappy::IsValidCompressedBuffer` (outside src/) is modelled — a well-framed
stream must begin with a parseable length header, so the empty stream is
structurally invalid.  Deeper structural checks of the real codec are not
modelled and not needed here. -/
def snappyIsValidModel (b : Bytes) : Bool := (snappyGetLenModel b).isSome

/-- A concrete codec instance used to exercise the harness: identity compress,
validity and declared length from the spec-modelled header fragment on the
header-free identity framing (length itself as header-less declared size). -/
def idCodec : Codec where
  compress := fun x => x
  isValid := fun _ => true
  getUncompressedLength := fun b => some b.length
  uncompress := fun b => some b

/-- A codec whose structural check rejects everything (a stub in the sense of
spec section 9, "one that always reports invalid"). -/
def rejectAllCodec : Codec where
  compress := fun x => x
  isValid := fun _ => false
  getUncompressedLength := fun _ => none
  uncompress := fun _ => none

/-- A codec that reports a wrong declared length (a stub in the sense of spec
section 9, "one that reports a wrong length"). -/
def wrongLenCodec : Codec where
  compress := fun x => x
  isValid := fun _ => true
  getUncompressedLength := fun _ => some 5
  uncompress := fun _ => none

/-- A codec built on the spec-modelled snappy header fragment. -/
def snappyModelCodec : Codec where
  compress := fun x => x
  isValid := snappyIsValidModel
  getUncompressedLength := snappyGetLenModel
  uncompress := fun _ => none

/-! ## Helper lemmas -/

theorem foldl_append_singleton (l : List Nat) :
    ∀ acc : Bytes, l.foldl (fun a i => a ++ [i]) acc = acc ++ l := by
  induction l with
  | nil => intro acc; simp
  | cons x xs ih => intro acc; simp [List.foldl_cons, ih]

theorem asciiInput_eq_range' : asciiInput = List.range' 32 95 := by
  unfold asciiInput
  rw [foldl_append_singleton]
  simp

theorem mem_asciiInput (b : Nat) : b ∈ asciiInput ↔ 32 ≤ b ∧ b ≤ 126 := by
  rw [asciiInput_eq_range', List.mem_range']
  constructor
  · rintro ⟨i, hi, rfl⟩; omega
  · rintro ⟨h1, h2⟩; exact ⟨b - 32, by omega, by omega⟩

theorem resizeStr_length (n : Nat) (l : Bytes) : (resizeStr n l).length = n := by
  simp only [resizeStr, List.length_append, List.length_take, List.length_replicate]
  omega

theorem flatten_replicate_succ (c : Bytes) (j : Nat) :
    (List.replicate (j + 1) c).flatten = (List.replicate j c).flatten ++ c := by
  induction j with
  | zero => simp
  | succ j ih =>
      calc (List.replicate (j + 1 + 1) c).flatten
          = c ++ (List.replicate (j + 1) c).flatten := by
            rw [List.replicate_succ, List.flatten_cons]
        _ = c ++ ((List.replicate j c).flatten ++ c) := by rw [ih]
        _ = (c ++ (List.replicate j c).flatten) ++ c := by
            rw [List.append_assoc]
        _ = (List.replicate (j + 1) c).flatten ++ c := by
            rw [List.replicate_succ, List.flatten_cons]

theorem build100kLoop_shape : ∀ (n : Nat) (acc : Bytes),
    100000 - acc.length ≤ n →
    (∃ j, acc = (List.replicate j chunkPhrase).flatten) →
    (∃ k, build100kLoop acc = (List.replicate k chunkPhrase).flatten) ∧
      100000 ≤ (build100kLoop acc).length := by
  intro n
  induction n with
  | zero =>
      intro acc hn hj
      unfold build100kLoop
      have hge : ¬ acc.length < 100000 := by omega
      rw [dif_neg hge]
      exact ⟨hj, by omega⟩
  | succ n ih =>
      intro acc hn hj
      obtain ⟨j, hj⟩ := hj
      unfold build100kLoop
      by_cases h : acc.length < 100000
      · rw [dif_pos h]
        apply ih
        · have hc : chunkPhrase.length = 45 := by decide
          simp only [List.length_append, hc]
          omega
        · refine ⟨j + 1, ?_⟩
          rw [flatten_replicate_succ, ← hj]
      · rw [dif_neg h]
        exact ⟨⟨j, hj⟩, by omega⟩

/-! ## Claim theorems -/

/-- C8: the baked-in corpus matches its documented shapes: the `ascii` case
contains every byte value 32..126 exactly once and no other bytes, and the
`large_100kb` case is exactly 100000 bytes, obtained by repeating the phrase
and truncating to exact size. -/
theorem corpus_shapes :
    (∀ b : Nat, asciiInput.count b = if 32 ≤ b ∧ b ≤ 126 then 1 else 0) ∧
    large100kInput.length = 100000 ∧
    (∃ k, large100kInput = ((List.replicate k chunkPhrase).flatten).take 100000) := by
  refine ⟨?_, resizeStr_length _ _, ?_⟩
  · have hd : asciiInput.Nodup := by
      rw [asciiInput_eq_range']
      exact List.nodup_range' 32 95
    intro b
    rw [List.count_eq_of_nodup hd]
    by_cases hb : 32 ≤ b ∧ b ≤ 126
    · rw [if_pos ((mem_asciiInput b).mpr hb), if_pos hb]
    · rw [if_neg (fun hm => hb ((mem_asciiInput b).mp hm)), if_neg hb]
  · obtain ⟨⟨k, hk⟩, hlen⟩ := build100kLoop_shape 100000 [] (by simp) ⟨0, by simp⟩
    refine ⟨k, ?_⟩
    unfold large100kInput resizeStr
    have h0 : 100000 - (build100kLoop []).length = 0 := by omega
    rw [h0, List.replicate_zero, List.append_nil, hk]

/-- C1: for every test case in the generator's catalog, under the spec's
contract that the reference codec is a round-tripping oracle, decompressing
the bytes produced by compress yields exactly the original input, and the
decompressed length equals the input length. -/
theorem catalog_roundtrip (codec : Codec)
    (h : ∀ x : Bytes, codec.uncompress (codec.compress x) = some x) :
    ∀ c ∈ catalog, codec.uncompress (codec.compress c.input) = some c.input ∧
      ∀ d, codec.uncompress (codec.compress c.input) = some d →
        d.length = c.input.length := by
  intro c _
  refine ⟨h c.input, ?_⟩
  intro d hd
  rw [h c.input] at hd
  obtain rfl : c.input = d := Option.some.inj hd
  rfl

/-- Witness for C1 at the `empty` catalog case with the identity codec. -/
theorem catalog_roundtrip_witness :
    idCodec.uncompress (idCodec.compress (TestCase.mk "empty" []).input) =
      some (TestCase.mk "empty" []).input ∧
    ∀ d, idCodec.uncompress (idCodec.compress (TestCase.mk "empty" []).input) = some d →
      d.length = (TestCase.mk "empty" []).input.length :=
  catalog_roundtrip idCodec (fun _ => rfl) ⟨"empty", []⟩ (List.mem_cons_self _ _)

/-- C2: a stream the structural validity check reports invalid makes the
validator exit non-zero at stage 2, and `snappy::Uncompress` is never
invoked on it. -/
theorem stage2_failure_blocks_decode (codec : Codec) (filename : String)
    (compressed : Bytes) (expectedSize : Nat)
    (h : codec.isValid compressed = false) :
    (runPipeline codec filename compressed expectedSize).exitCode ≠ 0 ∧
    (runPipeline codec filename compressed expectedSize).uncompressCalled = false ∧
    (runPipeline codec filename compressed expectedSize).failStage =
      some VStage.structural := by
  simp [runPipeline, h]

/-- Witness for C2: the reject-all codec on a one-byte file. -/
theorem stage2_failure_blocks_decode_witness :
    (runPipeline rejectAllCodec "f" [0] 0).exitCode ≠ 0 ∧
    (runPipeline rejectAllCodec "f" [0] 0).uncompressCalled = false ∧
    (runPipeline rejectAllCodec "f" [0] 0).failStage = some VStage.structural :=
  stage2_failure_blocks_decode rejectAllCodec "f" [0] 0 rfl

/-- C3: a structurally valid stream whose declared uncompressed length differs
from `expectedSize` fails at stage 3 with a diagnostic naming both values and
exit 1, and full decompression is not attempted. -/
theorem declared_size_mismatch_stage3 (codec : Codec) (filename : String)
    (compressed : Bytes) (expectedSize len : Nat)
    (hv : codec.isValid compressed = true)
    (hl : codec.getUncompressedLength compressed = some len)
    (hne : len ≠ expectedSize) :
    (runPipeline codec filename compressed expectedSize).exitCode = 1 ∧
    (runPipeline codec filename compressed expectedSize).failStage =
      some VStage.declaredSize ∧
    (runPipeline codec filename compressed expectedSize).uncompressCalled = false ∧
    (runPipeline codec filename compressed expectedSize).stderrLines =
      ["ERROR: Size mismatch! Expected " ++ toString expectedSize ++
       " but got " ++ toString len] := by
  simp [runPipeline, hv, hl, hne]

/-- Witness for C3: declared length 5 against expected size 3. -/
theorem declared_size_mismatch_stage3_witness :
    (runPipeline wrongLenCodec "f" [0] 3).exitCode = 1 ∧
    (runPipeline wrongLenCodec "f" [0] 3).failStage = some VStage.declaredSize ∧
    (runPipeline wrongLenCodec "f" [0] 3).uncompressCalled = false ∧
    (runPipeline wrongLenCodec "f" [0] 3).stderrLines =
      ["ERROR: Size mismatch! Expected " ++ toString (3 : Nat) ++
       " but got " ++ toString (5 : Nat)] :=
  declared_size_mismatch_stage3 wrongLenCodec "f" [0] 3 5 rfl rfl (by decide)

/-- C4: on a readable file and a parseable size argument, the run exits with
the pipeline's verdict, and either every stage passed — exit 0, empty error
stream, final aggregate success line — or exactly one stage failed — exit 1,
a failing stage recorded, and a single diagnostic naming that stage's error
with the concrete values involved. -/
theorem validator_exit_contract (codec : Codec) (fs : String → Option Bytes)
    (a0 filename sizeStr : String) (expectedSize : Nat) (compressed : Bytes)
    (hsz : stoull sizeStr = StoullResult.ok expectedSize)
    (hfs : fs filename = some compressed) :
    ∃ r, validatorMain codec fs [a0, filename, sizeStr] = ExecOutcome.exited r ∧
      r = runPipeline codec filename compressed expectedSize ∧
      ((r.exitCode = 0 ∧ r.failStage = none ∧ r.stderrLines = [] ∧
        r.stdoutLines.getLast? =
          some "✅ ALL CHECKS PASSED - Swift-compressed data is valid!") ∨
       (r.exitCode = 1 ∧ r.failStage = some VStage.structural ∧
        r.stderrLines = ["ERROR: Invalid compressed data format"]) ∨
       (r.exitCode = 1 ∧ r.failStage = some VStage.lengthQuery ∧
        r.stderrLines = ["ERROR: Cannot get uncompressed length"]) ∨
       (∃ len, codec.getUncompressedLength compressed = some len ∧
        r.exitCode = 1 ∧ r.failStage = some VStage.declaredSize ∧
        r.stderrLines = ["ERROR: Size mismatch! Expected " ++
          toString expectedSize ++ " but got " ++ toString len]) ∨
       (r.exitCode = 1 ∧ r.failStage = some VStage.decode ∧
        r.stderrLines = ["ERROR: Decompression failed"]) ∨
       (∃ d, codec.uncompress compressed = some d ∧
        r.exitCode = 1 ∧ r.failStage = some VStage.finalSize ∧
        r.stderrLines = ["ERROR: Decompressed size mismatch! Expected " ++
          toString expectedSize ++ " but got " ++ toString d.length])) := by
  refine ⟨runPipeline codec filename compressed expectedSize, ?_, rfl, ?_⟩
  · unfold validatorMain
    simp [hsz, hfs]
  · unfold runPipeline
    cases hv : codec.isValid compressed with
    | false =>
        refine Or.inr (Or.inl ?_)
        simp
    | true =>
        cases hl : codec.getUncompressedLength compressed with
        | none =>
            refine Or.inr (Or.inr (Or.inl ?_))
            simp
        | some len =>
            by_cases hne : len = expectedSize
            · subst hne
              simp only [ne_eq, not_true_eq_false, if_neg, ite_false,
                reduceIte, not_false_eq_true]
              cases hu : codec.uncompress compressed with
              | none =>
                  refine Or.inr (Or.inr (Or.inr (Or.inr (Or.inl ?_))))
                  simp
              | some d =>
                  by_cases hd : d.length = len
                  · refine Or.inl ?_
                    simp [hd]
                  · refine Or.inr (Or.inr (Or.inr (Or.inr (Or.inr ⟨d, rfl, ?_⟩))))
                    simp [hd]
            · refine Or.inr (Or.inr (Or.inr (Or.inl ⟨len, rfl, ?_⟩)))
              simp [hne]

/-- Witness for C4: the identity codec on a two-byte file with matching
expected size 2 (all stages pass). -/
theorem validator_exit_contract_witness :
    ∃ r, validatorMain idCodec (fun _ => some [1, 2]) ["v", "f", "2"] =
        ExecOutcome.exited r ∧
      r = runPipeline idCodec "f" [1, 2] 2 ∧
      ((r.exitCode = 0 ∧ r.failStage = none ∧ r.stderrLines = [] ∧
        r.stdoutLines.getLast? =
          some "✅ ALL CHECKS PASSED - Swift-compressed data is valid!") ∨
       (r.exitCode = 1 ∧ r.failStage = some VStage.structural ∧
        r.stderrLines = ["ERROR: Invalid compressed data format"]) ∨
       (r.exitCode = 1 ∧ r.failStage = some VStage.lengthQuery ∧
        r.stderrLines = ["ERROR: Cannot get uncompressed length"]) ∨
       (∃ len, idCodec.getUncompressedLength [1, 2] = some len ∧
        r.exitCode = 1 ∧ r.failStage = some VStage.declaredSize ∧
        r.stderrLines = ["ERROR: Size mismatch! Expected " ++
          toString (2 : Nat) ++ " but got " ++ toString len]) ∨
       (r.exitCode = 1 ∧ r.failStage = some VStage.decode ∧
        r.stderrLines = ["ERROR: Decompression failed"]) ∨
       (∃ d, idCodec.uncompress [1, 2] = some d ∧
        r.exitCode = 1 ∧ r.failStage = some VStage.finalSize ∧
        r.stderrLines = ["ERROR: Decompressed size mismatch! Expected " ++
          toString (2 : Nat) ++ " but got " ++ toString d.length])) :=
  validator_exit_contract idCodec (fun _ => some [1, 2]) "v" "f" "2" 2 [1, 2]
    (by decide) rfl

/-- C9: under the codec guarantee that a successful decompression's output
length equals the declared length, the stage-4 "Decompressed size mismatch"
branch is unreachable once stage 3 has passed. -/
theorem final_size_branch_unreachable (codec : Codec)
    (h : ∀ (b : Bytes) (len : Nat) (d : Bytes),
      codec.getUncompressedLength b = some len →
      codec.uncompress b = some d → d.length = len)
    (filename : String) (compressed : Bytes) (expectedSize : Nat) :
    (runPipeline codec filename compressed expectedSize).failStage ≠
      some VStage.finalSize := by
  unfold runPipeline
  cases hv : codec.isValid compressed with
  | false => simp
  | true =>
      cases hl : codec.getUncompressedLength compressed with
      | none => simp
      | some len =>
          by_cases hne : len = expectedSize
          · subst hne
            simp only [ne_eq, not_true_eq_false, reduceIte]
            cases hu : codec.uncompress compressed with
            | none => simp
            | some d =>
                have hd : d.length = len := h compressed len d hl hu
                simp [hd]
          · simp [hne]

/-- Witness for C9: the identity codec, whose declared length and decompressed
length always agree. -/
theorem final_size_branch_unreachable_witness :
    (runPipeline idCodec "f" [7] 1).failStage ≠ some VStage.finalSize :=
  final_size_branch_unreachable idCodec
    (fun _ _ _ h1 h2 => (Option.some.inj h2) ▸ (Option.some.inj h1))
    "f" [7] 1

/-- C10: a zero-length input file fails stage 2 (given that the codec's
structural check rejects the empty stream, as the modelled header framing
does) and the ratio division is never reached with divisor 0: whenever the
division at line 77 executes, the compressed size is positive. -/
theorem ratio_divisor_nonzero (codec : Codec) (filename : String)
    (expectedSize : Nat) (h : codec.isValid [] = false) :
    (runPipeline codec filename [] expectedSize).failStage =
      some VStage.structural ∧
    (runPipeline codec filename [] expectedSize).ratioDivisor = none ∧
    ∀ (compressed : Bytes) (d : Nat),
      (runPipeline codec filename compressed expectedSize).ratioDivisor =
        some d → 0 < d := by
  refine ⟨by simp [runPipeline, h], by simp [runPipeline, h], ?_⟩
  intro compressed d hd
  by_cases hc : compressed = []
  · subst hc
    simp [runPipeline, h] at hd
  · unfold runPipeline at hd
    cases hv : codec.isValid compressed with
    | false => simp [hv] at hd
    | true =>
        rw [hv] at hd
        cases hl : codec.getUncompressedLength compressed with
        | none => simp [hl] at hd
        | some len =>
            rw [hl] at hd
            by_cases hne : len = expectedSize
            · subst hne
              simp only [ne_eq, not_true_eq_false, reduceIte] at hd
              cases hu : codec.uncompress compressed with
              | none => simp [hu] at hd
              | some dec =>
                  rw [hu] at hd
                  by_cases hL : dec.length = len
                  · simp only [hL, ne_eq, not_true_eq_false, reduceIte] at hd
                    obtain rfl : compressed.length = d := Option.some.inj hd
                    have : compressed.length ≠ 0 := by
                      simpa [List.length_eq_zero] using hc
                    omega
                  · simp [hL] at hd
            · simp [hne] at hd

/-- Witness for C10: the spec-modelled snappy codec rejects the empty stream. -/
theorem ratio_divisor_nonzero_witness :
    (runPipeline snappyModelCodec "f" [] 0).failStage = some VStage.structural ∧
    (runPipeline snappyModelCodec "f" [] 0).ratioDivisor = none ∧
    ∀ (compressed : Bytes) (d : Nat),
      (runPipeline snappyModelCodec "f" compressed 0).ratioDivisor = some d →
        0 < d :=
  ratio_divisor_nonzero snappyModelCodec "f" 0 (by decide)

/-- C5 counterexample: `writeTestCase` has no special case for the empty
input — its summary for case `empty` does contain a ratio line (here with a
codec emitting the one-byte length header for the empty input), refuting the
claim that the ratio is left unreported for the empty-input case. -/
theorem empty_case_ratio_reported :
    GenLine.ratioLine 0 1 ∈
      (writeTestCase (fun _ => [0]) (fun _ _ => true) "empty" []).2 := by
  decide

/-- C5 amended: the per-case summary reports the ratio with operands
`inputSize` and `compressedSize` unconditionally — for every codec, case name
and input, including the empty input; no special case exists, so avoiding a
zero divisor relies on the codec emitting nonempty output for empty input. -/
theorem ratio_always_reported (compress : Bytes → Bytes)
    (fsWrite : String → Bytes → Bool) (name : String) (input : Bytes) :
    GenLine.ratioLine input.length (compress input).length ∈
      (writeTestCase compress fsWrite name input).2 := by
  simp [writeTestCase]

/-- C6: `std::stoull` at line 20 is called outside any try block, so a second
argument with no leading digits raises `std::invalid_argument`, which is never
caught: the process terminates abnormally without any program-issued
diagnostic, instead of failing with an `ArgumentError` as the spec requires. -/
theorem nonnumeric_size_arg_aborts :
    validatorMain idCodec (fun _ => some [])
      ["./validate_snappy", "test.snappy", "abc"] =
      ExecOutcome.aborted "std::invalid_argument" := by
  decide

/-- C7: `writeTestCase` never consults the stream state: with a filesystem on
which every write fails, the case summary still contains the `Saved to`
success line, and the generator run still completes with exit code 0,
contradicting the spec's requirement that a write failure be fatal for the
case. -/
theorem write_failure_ignored :
    (writeTestCase (fun x => x) (fun _ _ => false) "empty" []).1 = false ∧
    GenLine.savedTo "Tests/SnappySwiftTests/TestData/empty.snappy" ∈
      (writeTestCase (fun x => x) (fun _ _ => false) "empty" []).2 ∧
    (generatorMain (fun x => x) (fun _ _ => false)).1 = 0 :=
  ⟨rfl, by decide, rfl⟩

end SnappySwift
